import Mathlib

/-!
Verification of the manifest-loading core of the meta-dds repository
(`src/meta-dds/sdist/package.hpp` and the implementation of
`meta_dds::package_manifest::load`).  The generic data tree, the manifest
record types and the schema handlers are translated from the source; the
walking primitives of the external `semester` library and the external
version grammars of `semver` / `dds` are modelled from the specification,
as noted on each definition.
-/

namespace MetaDds

/-- Generic Data Node: the tagged union produced by the external json5
parser (`json5::data`).  Objects are ordered lists of entries. -/
inductive JsonData where
  | null : JsonData
  | bool (b : Bool) : JsonData
  | num (n : Int) : JsonData
  | str (s : String) : JsonData
  | arr (elems : List JsonData) : JsonData
  | obj (entries : List (String × JsonData)) : JsonData

/-- Modelled from the spec: the error kinds of section 7.  In the source,
every `semester::walk_error` rejection is re-thrown by the catch block of
`package_manifest::load` as a `dds` `invalid_pkg_manifest` user error; we
keep the spec's finer taxonomy so that theorems can distinguish the kinds.
`schemaViolation` doubles as the generic walk rejection signal, and
`invalidVersionRangeString` / `missingRequiredKey` carry their offending
strings structurally (the source interpolates them into the message). -/
inductive LoadErr where
  | schemaViolation (msg : String)
  | missingRequiredKey (key : String) (msg : String)
  | invalidVersionRangeString (rangeStr : String) (depName : String)
  | invalidDependencySpecifierString (s : String)
deriving DecidableEq

/-- Modelled from the spec: a version of the external `semver` library,
as the tuple of numeric components of a `major.minor.patch` string. -/
structure version where
  major : Nat
  minor : Nat
  patch : Nat
deriving DecidableEq

/-- `dds::dependency` (external `dds/deps.hpp`): a package name plus a
`[low, high)` version range. -/
structure dds_dependency where
  name : String
  low : version
  high : version
deriving DecidableEq

/-- `meta_dds::meta_dependency` from `src/meta-dds/sdist/package.hpp`:
a dependency plus ordered passthrough configuration pairs. -/
structure meta_dependency where
  dep : dds_dependency
  cmake_config : List (String × String)
deriving DecidableEq

/-- `meta_dds::package_manifest` from `src/meta-dds/sdist/package.hpp`. -/
structure package_manifest where
  depends : List dds_dependency
  test_depends : List dds_dependency
  meta_depends : List meta_dependency
  meta_test_depends : List meta_dependency
deriving DecidableEq

/-- The default-constructed `package_manifest ret;` of the source: all four
sequences empty. -/
def init_manifest : package_manifest := ⟨[], [], [], []⟩

def dot_char : Char := '.'

def at_char : Char := '@'

/-- Decimal digit value of a character, if it is a digit. -/
def digit_val (c : Char) : Option Nat :=
  if c.isDigit then some (c.toNat - 48) else none

/-- Accumulating decimal reading of a digit sequence. -/
def chars_to_nat_go : List Char → Nat → Option Nat
  | [], acc => some acc
  | c :: rest, acc =>
    match digit_val c with
    | some d => chars_to_nat_go rest (acc * 10 + d)
    | none => none

/-- A non-empty all-digit character sequence read as a decimal number. -/
def chars_to_nat : List Char → Option Nat
  | [] => none
  | l => chars_to_nat_go l 0

/-- Split a character sequence on every occurrence of the separator. -/
def split_on_char (c : Char) : List Char → List (List Char)
  | [] => [[]]
  | x :: rest =>
    let r := split_on_char c rest
    if x == c then [] :: r
    else
      match r with
      | [] => [[x]]
      | h :: t => (x :: h) :: t

/-- Split a character sequence at the first occurrence of the separator,
if any. -/
def split_first_at (c : Char) : List Char → Option (List Char × List Char)
  | [] => none
  | x :: rest =>
    if x == c then some ([], rest)
    else
      match split_first_at c rest with
      | none => none
      | some (l, r) => some (x :: l, r)

/-- Modelled from the spec: the external version grammar parses a dotted
numeric `major.minor.patch` component string. -/
def parse_version (s : String) : Option version :=
  match split_on_char dot_char s.toList with
  | [a, b, c] =>
    match chars_to_nat a, chars_to_nat b, chars_to_nat c with
    | some x, some y, some z => some ⟨x, y, z⟩
    | _, _, _ => none
  | _ => none

/-- Modelled from the spec: `semver::range::parse_restricted`, the external
range grammar.  Given a version string it yields a `(low, high)` bound with
`low <= high` (the spec's concrete scenario writes the bound of `1.0.0` as
`[1.0.0, 1.0.0)` or equivalent), or fails. -/
def parse_restricted (s : String) : Option (version × version) :=
  (parse_version s).map (fun v => (v, v))

/-- Modelled from the spec: `dds::dependency::parse_depends_string`,
external to this repository.  The combined specifier grammar is
`<name><delimiter><version-range-expression>` with a non-empty name; a
string without that shape is a malformed combined string
(`InvalidDependencySpecifierString`), and a version-range grammar failure
inside a string element propagates as a walk rejection (spec section 4.2:
"on grammar failure, propagate as a rejection"). -/
def parse_depends_string (s : String) : Except LoadErr dds_dependency :=
  match split_first_at at_char s.toList with
  | none => .error (.invalidDependencySpecifierString s)
  | some (nameChars, rngChars) =>
    if nameChars.isEmpty then .error (.invalidDependencySpecifierString s)
    else
      match parse_restricted (String.mk rngChars) with
      | some (lo, hi) => .ok ⟨String.mk nameChars, lo, hi⟩
      | none =>
        .error (.schemaViolation ("Invalid version range in dependency string " ++ s))

/-- The source's `str_to_dependency` closure: delegates to
`dds::dependency::parse_depends_string`. -/
def str_to_dependency (s : String) : Except LoadErr dds_dependency :=
  parse_depends_string s

/-- The source's `push_depends_obj_kv` closure: given one entry of a
dependency object, require the value be a string, parse it with the
restricted range grammar, and push the dependency onto `ret.depends`
(the closure captures `ret.depends` unconditionally). -/
def push_depends_obj_kv (ret : package_manifest) (key : String) (dat : JsonData) :
    Except LoadErr package_manifest :=
  match dat with
  | .str s =>
    match parse_restricted s with
    | some (lo, hi) => .ok { ret with depends := ret.depends ++ [⟨key, lo, hi⟩] }
    | none => .error (.invalidVersionRangeString s key)
  | _ => .error (.schemaViolation ("Dependency object values should be strings"))

/-- Modelled from the spec: `semester`'s `mapping{push_depends_obj_kv}`
applied to the entries of a dependency object — `map_over_entries` applies
the entry sink to every entry in stored order, aborting at the first
rejection. -/
def mapping_push_depends : package_manifest → List (String × JsonData) →
    Except LoadErr package_manifest
  | ret, [] => .ok ret
  | ret, (k, v) :: rest =>
    match push_depends_obj_kv ret k v with
    | .ok ret2 => mapping_push_depends ret2 rest
    | .error e => .error e

/-- The rejection message of the source's `dependency` / `meta_dependency`
closures for elements that are neither objects nor strings. -/
def elem_shape_msg (key_name : String) : String :=
  "`" ++ key_name ++ "\x27 should be an array of strings or objects"

/-- The source's `dependency` closure (its `meta_dependency` closure has an
identical body): handle one element of a dependency array.  Objects go
through `mapping{push_depends_obj_kv}`; strings are parsed as combined
specifiers and pushed onto the target list via the `push` action (the
source's `put_into{std::back_inserter(depends), str_to_dependency}`);
anything else is rejected. -/
def dependency (push : package_manifest → dds_dependency → package_manifest)
    (key_name : String) (ret : package_manifest) (dat : JsonData) :
    Except LoadErr package_manifest :=
  match dat with
  | .obj entries => mapping_push_depends ret entries
  | .str s =>
    match str_to_dependency s with
    | .ok d => .ok (push ret d)
    | .error e => .error e
  | _ => .error (.schemaViolation (elem_shape_msg key_name))

/-- Target action for string elements of the root `depends` array. -/
def push_root_dep (ret : package_manifest) (d : dds_dependency) : package_manifest :=
  { ret with depends := ret.depends ++ [d] }

/-- Target action for string elements of the root `test_depends` array. -/
def push_test_dep (ret : package_manifest) (d : dds_dependency) : package_manifest :=
  { ret with test_depends := ret.test_depends ++ [d] }

/-- Target action for string elements of the `meta_dds.depends` array:
a `meta_dependency` with an empty configuration list. -/
def push_meta_dep (ret : package_manifest) (d : dds_dependency) : package_manifest :=
  { ret with meta_depends := ret.meta_depends ++ [⟨d, []⟩] }

/-- Target action for string elements of the `meta_dds.test_depends`
array: a `meta_dependency` with an empty configuration list. -/
def push_meta_test_dep (ret : package_manifest) (d : dds_dependency) : package_manifest :=
  { ret with meta_test_depends := ret.meta_test_depends ++ [⟨d, []⟩] }

/-- Modelled from the spec: `semester`'s `for_each` — apply the element
sink to every element of the array in order, aborting at the first
rejection. -/
def for_each_element
    (f : package_manifest → JsonData → Except LoadErr package_manifest) :
    List JsonData → package_manifest → Except LoadErr package_manifest
  | [], ret => .ok ret
  | e :: rest, ret =>
    match f ret e with
    | .ok ret2 => for_each_element f rest ret2
    | .error e2 => .error e2

/-- Modelled from the spec: `semester`'s `require_type<array_type>` — fail
with a `SchemaViolation` carrying `msg` unless the node is an array, else
continue with the elements. -/
def require_array (msg : String)
    (k : List JsonData → package_manifest → Except LoadErr package_manifest)
    (v : JsonData) (ret : package_manifest) : Except LoadErr package_manifest :=
  match v with
  | .arr elems => k elems ret
  | _ => .error (.schemaViolation msg)

/-- Modelled from the spec: `semester`'s `if_key` / the spec's
`optional_key(name, subschema)` — if `name` is present apply `subschema`
to its value, otherwise a no-op; never fails due to absence. -/
def optional_key (entries : List (String × JsonData)) (name : String)
    (subschema : JsonData → package_manifest → Except LoadErr package_manifest)
    (ret : package_manifest) : Except LoadErr package_manifest :=
  match List.lookup name entries with
  | none => .ok ret
  | some v => subschema v ret

def depends_key : String := "depends"

def test_depends_key : String := "test_depends"

def meta_dds_key : String := "meta_dds"

def meta_depends_keyname : String := "meta_dds.depends"

def meta_test_depends_keyname : String := "meta_dds.test_depends"

/-- The `require_array` message of the source schema for a dependency
key. -/
def array_msg (key_name : String) : String :=
  "`" ++ key_name ++ "\x27 should be an array of dependencies"

/-- The `required_key` explanatory message for a missing `meta_dds`. -/
def meta_dds_missing_msg : String :=
  "Do you really need meta-dds? Consider using dds proper. If you need the build script, add an empty meta_dds: \x7b\x7d object in your meta_package.json5"

def root_msg : String := "Root of package manifest should be a JSON object"

/-- Modelled from the spec: a mapping subschema applied to a non-object
rejects with a type violation. -/
def mapping_non_object_msg : String := "Expected an object"

/-- The two root-level `if_key` schema operations of
`package_manifest::load` (`depends`, then `test_depends`), applied in the
spec's section 4.2 order starting from the default-constructed manifest. -/
def load_root_deps (entries : List (String × JsonData)) :
    Except LoadErr package_manifest :=
  match optional_key entries depends_key
      (require_array (array_msg depends_key)
        (for_each_element (dependency push_root_dep depends_key)))
      init_manifest with
  | .error e => .error e
  | .ok r1 =>
    optional_key entries test_depends_key
      (require_array (array_msg test_depends_key)
        (for_each_element (dependency push_test_dep test_depends_key))) r1

/-- The nested subschema attached to the required `meta_dds` key: a
mapping with optional `depends` / `test_depends` arrays handled by the
source's `meta_dependency` closure (identical in body to `dependency`),
with targets `ret.meta_depends` / `ret.meta_test_depends`. -/
def meta_dds_subschema (v : JsonData) (ret : package_manifest) :
    Except LoadErr package_manifest :=
  match v with
  | .obj inner =>
    match optional_key inner depends_key
        (require_array (array_msg meta_depends_keyname)
          (for_each_element (dependency push_meta_dep meta_depends_keyname)))
        ret with
    | .error e => .error e
    | .ok r1 =>
      optional_key inner test_depends_key
        (require_array (array_msg meta_test_depends_keyname)
          (for_each_element (dependency push_meta_test_dep meta_test_depends_keyname)))
        r1
  | _ => .error (.schemaViolation mapping_non_object_msg)

/-- `meta_dds::package_manifest::load`: require the root be an object,
run the two optional root dependency keys, then the required `meta_dds`
key with its nested subschema.  Schema operations run in the spec's
section 4.2 order and the first rejection aborts the whole load. -/
def load (data : JsonData) : Except LoadErr package_manifest :=
  match data with
  | .obj entries =>
    match load_root_deps entries with
    | .error e => .error e
    | .ok r2 =>
      match List.lookup meta_dds_key entries with
      | none => .error (.missingRequiredKey meta_dds_key meta_dds_missing_msg)
      | some v => meta_dds_subschema v r2
  | _ => .error (.schemaViolation root_msg)

/-!  Helper lemmas shared by the claim theorems.  -/

/-- Specification helper used in theorem statements only: the dependencies
denoted by the entries of a dependency object, or the first per-entry
error, mirroring the per-entry action of `push_depends_obj_kv` without the
destination manifest. -/
def parse_obj_entries : List (String × JsonData) → Except LoadErr (List dds_dependency)
  | [] => .ok []
  | (k, v) :: rest =>
    match v with
    | .str s =>
      match parse_restricted s with
      | some (lo, hi) => Except.map (fun ds => ⟨k, lo, hi⟩ :: ds) (parse_obj_entries rest)
      | none => .error (.invalidVersionRangeString s k)
    | _ => .error (.schemaViolation ("Dependency object values should be strings"))

theorem mapping_push_eq_parse (entries : List (String × JsonData)) (ret : package_manifest) :
    mapping_push_depends ret entries
      = Except.map (fun ds => { ret with depends := ret.depends ++ ds })
          (parse_obj_entries entries) := by
  induction entries generalizing ret with
  | nil => simp [mapping_push_depends, parse_obj_entries, Except.map]
  | cons kv rest ih =>
    obtain ⟨k, v⟩ := kv
    cases v with
    | str s =>
      cases hp : parse_restricted s with
      | none =>
        simp [mapping_push_depends, push_depends_obj_kv, parse_obj_entries, hp, Except.map]
      | some p =>
        obtain ⟨lo, hi⟩ := p
        simp only [mapping_push_depends, push_depends_obj_kv, parse_obj_entries, hp]
        rw [ih]
        cases hq : parse_obj_entries rest with
        | error e => simp [Except.map]
        | ok ds => simp [Except.map, List.append_assoc]
    | null =>
      simp [mapping_push_depends, push_depends_obj_kv, parse_obj_entries, Except.map]
    | bool b =>
      simp [mapping_push_depends, push_depends_obj_kv, parse_obj_entries, Except.map]
    | num n =>
      simp [mapping_push_depends, push_depends_obj_kv, parse_obj_entries, Except.map]
    | arr es =>
      simp [mapping_push_depends, push_depends_obj_kv, parse_obj_entries, Except.map]
    | obj es =>
      simp [mapping_push_depends, push_depends_obj_kv, parse_obj_entries, Except.map]

theorem mapping_push_depends_only (entries : List (String × JsonData))
    (ret r : package_manifest) (h : mapping_push_depends ret entries = .ok r) :
    r.test_depends = ret.test_depends ∧ r.meta_depends = ret.meta_depends ∧
    r.meta_test_depends = ret.meta_test_depends ∧
    ∃ ds, r.depends = ret.depends ++ ds := by
  rw [mapping_push_eq_parse] at h
  cases hq : parse_obj_entries entries with
  | error e => rw [hq] at h; simp [Except.map] at h
  | ok ds =>
    rw [hq] at h
    simp only [Except.map, Except.ok.injEq] at h
    subst h
    exact ⟨rfl, rfl, rfl, ds, rfl⟩

/-- Every `meta_dependency` of the manifest carries an empty passthrough
configuration list. -/
def meta_cfgs_empty (m : package_manifest) : Prop :=
  (∀ md ∈ m.meta_depends, md.cmake_config = ([] : List (String × String))) ∧
  (∀ md ∈ m.meta_test_depends, md.cmake_config = ([] : List (String × String)))

theorem push_root_dep_cfgs (ret : package_manifest) (d : dds_dependency)
    (hP : meta_cfgs_empty ret) : meta_cfgs_empty (push_root_dep ret d) := by
  simpa [meta_cfgs_empty, push_root_dep] using hP

theorem push_test_dep_cfgs (ret : package_manifest) (d : dds_dependency)
    (hP : meta_cfgs_empty ret) : meta_cfgs_empty (push_test_dep ret d) := by
  simpa [meta_cfgs_empty, push_test_dep] using hP

theorem push_meta_dep_cfgs (ret : package_manifest) (d : dds_dependency)
    (hP : meta_cfgs_empty ret) : meta_cfgs_empty (push_meta_dep ret d) := by
  refine ⟨?_, hP.2⟩
  intro md hmd
  simp only [push_meta_dep, List.mem_append, List.mem_singleton] at hmd
  rcases hmd with hmd | hmd
  · exact hP.1 md hmd
  · subst hmd; rfl

theorem push_meta_test_dep_cfgs (ret : package_manifest) (d : dds_dependency)
    (hP : meta_cfgs_empty ret) : meta_cfgs_empty (push_meta_test_dep ret d) := by
  refine ⟨hP.1, ?_⟩
  intro md hmd
  simp only [push_meta_test_dep, List.mem_append, List.mem_singleton] at hmd
  rcases hmd with hmd | hmd
  · exact hP.2 md hmd
  · subst hmd; rfl

theorem dependency_preserves_cfgs
    (push : package_manifest → dds_dependency → package_manifest)
    (hpush : ∀ ret d, meta_cfgs_empty ret → meta_cfgs_empty (push ret d))
    (kn : String) (ret r : package_manifest) (dat : JsonData)
    (h : dependency push kn ret dat = .ok r) (hP : meta_cfgs_empty ret) :
    meta_cfgs_empty r := by
  cases dat with
  | obj entries =>
    simp only [dependency] at h
    obtain ⟨_, h2, h3, _⟩ := mapping_push_depends_only entries ret r h
    exact ⟨h2 ▸ hP.1, h3 ▸ hP.2⟩
  | str s =>
    simp only [dependency] at h
    cases hs : str_to_dependency s with
    | ok d =>
      rw [hs] at h
      injection h with h
      exact h ▸ hpush ret d hP
    | error e => rw [hs] at h; exact absurd h (by simp)
  | null => exact absurd h (by simp [dependency])
  | bool b => exact absurd h (by simp [dependency])
  | num n => exact absurd h (by simp [dependency])
  | arr es => exact absurd h (by simp [dependency])

theorem for_each_preserves_cfgs
    (f : package_manifest → JsonData → Except LoadErr package_manifest)
    (hf : ∀ ret dat r, f ret dat = .ok r → meta_cfgs_empty ret → meta_cfgs_empty r)
    (elems : List JsonData) :
    ∀ ret r, for_each_element f elems ret = .ok r → meta_cfgs_empty ret →
      meta_cfgs_empty r := by
  induction elems with
  | nil =>
    intro ret r h hP
    simp only [for_each_element, Except.ok.injEq] at h
    exact h ▸ hP
  | cons e rest ih =>
    intro ret r h hP
    simp only [for_each_element] at h
    cases he : f ret e with
    | ok ret2 => rw [he] at h; exact ih ret2 r h (hf ret e ret2 he hP)
    | error e2 => rw [he] at h; exact absurd h (by simp)

theorem require_array_preserves_cfgs (msg : String)
    (k : List JsonData → package_manifest → Except LoadErr package_manifest)
    (hk : ∀ elems ret r, k elems ret = .ok r → meta_cfgs_empty ret → meta_cfgs_empty r)
    (v : JsonData) (ret r : package_manifest)
    (h : require_array msg k v ret = .ok r) (hP : meta_cfgs_empty ret) :
    meta_cfgs_empty r := by
  cases v with
  | arr elems => exact hk elems ret r h hP
  | null => exact absurd h (by simp [require_array])
  | bool b => exact absurd h (by simp [require_array])
  | num n => exact absurd h (by simp [require_array])
  | str s => exact absurd h (by simp [require_array])
  | obj es => exact absurd h (by simp [require_array])

theorem optional_key_preserves_cfgs (entries : List (String × JsonData)) (name : String)
    (sub : JsonData → package_manifest → Except LoadErr package_manifest)
    (hsub : ∀ v ret r, sub v ret = .ok r → meta_cfgs_empty ret → meta_cfgs_empty r)
    (ret r : package_manifest) (h : optional_key entries name sub ret = .ok r)
    (hP : meta_cfgs_empty ret) : meta_cfgs_empty r := by
  unfold optional_key at h
  cases hl : List.lookup name entries with
  | none =>
    rw [hl] at h
    injection h with h
    exact h ▸ hP
  | some v => rw [hl] at h; exact hsub v ret r h hP

theorem load_meta_cfgs_empty (entries : List (String × JsonData)) (m : package_manifest)
    (h : load (.obj entries) = .ok m) : meta_cfgs_empty m := by
  have hinit : meta_cfgs_empty init_manifest := by
    constructor <;> intro md hmd <;> exact absurd hmd (by simp [init_manifest])
  have hdep : ∀ push, (∀ ret d, meta_cfgs_empty ret → meta_cfgs_empty (push ret d)) →
      ∀ kn v ret r,
        require_array (array_msg kn) (for_each_element (dependency push kn)) v ret = .ok r →
        meta_cfgs_empty ret → meta_cfgs_empty r := by
    intro push hpush kn v ret r hh hP
    exact require_array_preserves_cfgs _ _
      (for_each_preserves_cfgs _
        (fun ret2 dat r2 h2 hP2 => dependency_preserves_cfgs push hpush kn ret2 r2 dat h2 hP2))
      v ret r hh hP
  simp only [load] at h
  cases hroot : load_root_deps entries with
  | error e => rw [hroot] at h; exact absurd h (by simp)
  | ok r2 =>
    rw [hroot] at h
    have hr2 : meta_cfgs_empty r2 := by
      unfold load_root_deps at hroot
      cases h1 : optional_key entries depends_key
          (require_array (array_msg depends_key)
            (for_each_element (dependency push_root_dep depends_key))) init_manifest with
      | error e => rw [h1] at hroot; exact absurd hroot (by simp)
      | ok r1 =>
        rw [h1] at hroot
        have hP1 : meta_cfgs_empty r1 :=
          optional_key_preserves_cfgs entries depends_key _
            (hdep push_root_dep push_root_dep_cfgs depends_key) init_manifest r1 h1 hinit
        exact optional_key_preserves_cfgs entries test_depends_key _
          (hdep push_test_dep push_test_dep_cfgs test_depends_key) r1 r2 hroot hP1
    cases hl : List.lookup meta_dds_key entries with
    | none => rw [hl] at h; exact absurd h (by simp)
    | some v =>
      rw [hl] at h
      cases v with
      | obj inner =>
        simp only [meta_dds_subschema] at h
        cases h1 : optional_key inner depends_key
            (require_array (array_msg meta_depends_keyname)
              (for_each_element (dependency push_meta_dep meta_depends_keyname))) r2 with
        | error e => rw [h1] at h; exact absurd h (by simp)
        | ok r3 =>
          rw [h1] at h
          have hP3 : meta_cfgs_empty r3 :=
            optional_key_preserves_cfgs inner depends_key _
              (hdep push_meta_dep push_meta_dep_cfgs meta_depends_keyname) r2 r3 h1 hr2
          exact optional_key_preserves_cfgs inner test_depends_key _
            (hdep push_meta_test_dep push_meta_test_dep_cfgs meta_test_depends_keyname)
            r3 m h hP3
      | null => exact absurd h (by simp [meta_dds_subschema])
      | bool b => exact absurd h (by simp [meta_dds_subschema])
      | num n => exact absurd h (by simp [meta_dds_subschema])
      | str s => exact absurd h (by simp [meta_dds_subschema])
      | arr es => exact absurd h (by simp [meta_dds_subschema])

/-!  Claim theorems.  -/

/-- Claim C1, counterexample: an input object that lacks `meta_dds` but has
an invalid `depends` value is rejected with the `depends`-array
`SchemaViolation`, not with a `MissingRequiredKey` mentioning `meta_dds` —
so the error kind is not `MissingRequiredKey` "regardless of whether
depends or test_depends are present or valid". -/
theorem c1_missing_meta_dds_counterexample :
    load (.obj [(depends_key, .str ("not-an-array"))])
      = .error (.schemaViolation (array_msg depends_key)) := rfl

/-- Claim C1, amended: for every input object lacking the `meta_dds` key,
load fails and produces no manifest; and whenever the two root dependency
keys pass their own subschemas, the failure is the `MissingRequiredKey`
rejection naming `meta_dds`. -/
theorem c1_missing_meta_dds_fails (entries : List (String × JsonData))
    (h : List.lookup meta_dds_key entries = none) :
    (∀ m, load (.obj entries) ≠ .ok m) ∧
    (∀ r2, load_root_deps entries = .ok r2 →
      load (.obj entries)
        = .error (.missingRequiredKey meta_dds_key meta_dds_missing_msg)) := by
  constructor
  · intro m hm
    simp only [load] at hm
    cases hroot : load_root_deps entries with
    | error e => rw [hroot] at hm; simp at hm
    | ok r2 => rw [hroot, h] at hm; simp at hm
  · intro r2 h2
    simp only [load]
    rw [h2, h]

/-- Claim C1, witness: loading an object with a valid `depends` array and
no `meta_dds` fails with the `MissingRequiredKey` rejection for
`meta_dds`. -/
theorem c1_missing_meta_dds_fails_witness :
    load (.obj [(depends_key, .arr [.str ("a@1.0.0")])])
      = .error (.missingRequiredKey meta_dds_key meta_dds_missing_msg) :=
  (c1_missing_meta_dds_fails [(depends_key, .arr [.str ("a@1.0.0")])] rfl).2
    ⟨[⟨"a", ⟨1, 0, 0⟩, ⟨1, 0, 0⟩⟩], [], [], []⟩ rfl

/-- Claim C2: on `\x7b"meta_dds": \x7b"depends": [\x7b"b": "2.0.0"\x7d]\x7d\x7d`
the code appends the parsed dependency `b` to the root `depends` list
(`push_depends_obj_kv` captures `ret.depends`) and leaves `meta_depends`
empty — the opposite of the claimed result. -/
theorem c2_meta_depends_object_scenario :
    load (.obj [(meta_dds_key, .obj [(depends_key,
        .arr [.obj [("b", .str ("2.0.0"))]])])])
      = .ok ⟨[⟨"b", ⟨2, 0, 0⟩, ⟨2, 0, 0⟩⟩], [], [], []⟩ := rfl

/-- Claim C3: under `test_depends`, the object spelling of a dependency is
appended to the root `depends` list while the string spelling of the same
dependency is appended to `test_depends`; the parsed name and range agree,
but the destination lists differ. -/
theorem c3_object_vs_string_destination :
    load (.obj [(test_depends_key, .arr [.obj [("a", .str ("1.0.0"))]]),
        (meta_dds_key, .obj [])])
      = .ok ⟨[⟨"a", ⟨1, 0, 0⟩, ⟨1, 0, 0⟩⟩], [], [], []⟩ ∧
    load (.obj [(test_depends_key, .arr [.str ("a@1.0.0")]),
        (meta_dds_key, .obj [])])
      = .ok ⟨[], [⟨"a", ⟨1, 0, 0⟩, ⟨1, 0, 0⟩⟩], [], []⟩ := ⟨rfl, rfl⟩

/-- Claim C4, counterexample: in an object element under
`meta_dds.test_depends`, a second entry is not collected as a passthrough
configuration pair — it is parsed as another dependency, and its non-range
value makes the whole load fail. -/
theorem c4_counterexample_config_entry_rejected :
    load (.obj [(meta_dds_key, .obj [(test_depends_key,
        .arr [.obj [("c", .str ("3.0.0")), ("x", .str ("y"))]])])])
      = .error (.invalidVersionRangeString ("y") ("x")) := rfl

/-- Claim C4, amended: the meta element handler never builds an
`ExtendedDependency` from an object element: every entry of the object is
parsed as a `name: range` dependency and appended to the root `depends`
list, and no configuration pair is collected; a string element yields a
`meta_dependency` with an empty configuration list. -/
theorem c4_meta_object_entries_behavior (kn : String) (ret : package_manifest) :
    (∀ entries, dependency push_meta_dep kn ret (.obj entries)
        = Except.map (fun ds => { ret with depends := ret.depends ++ ds })
            (parse_obj_entries entries)) ∧
    (∀ s d, str_to_dependency s = .ok d →
      dependency push_meta_dep kn ret (.str s)
        = .ok { ret with meta_depends := ret.meta_depends ++ [⟨d, []⟩] }) := by
  constructor
  · intro entries
    simp only [dependency]
    exact mapping_push_eq_parse entries ret
  · intro s d hd
    simp only [dependency, hd]
    rfl

/-- Claim C4, witness: concrete instances of both parts of the amended
claim. -/
theorem c4_meta_object_entries_behavior_witness :
    (dependency push_meta_dep meta_depends_keyname init_manifest
        (.obj [("c", .str ("3.0.0")), ("x", .str ("y"))])
      = Except.map
          (fun ds => { init_manifest with depends := init_manifest.depends ++ ds })
          (parse_obj_entries [("c", .str ("3.0.0")), ("x", .str ("y"))])) ∧
    (dependency push_meta_dep meta_depends_keyname init_manifest (.str ("m@1.0.0"))
      = .ok { init_manifest with
          meta_depends :=
            init_manifest.meta_depends ++ [⟨⟨"m", ⟨1, 0, 0⟩, ⟨1, 0, 0⟩⟩, []⟩] }) :=
  ⟨(c4_meta_object_entries_behavior meta_depends_keyname init_manifest).1
      [("c", .str ("3.0.0")), ("x", .str ("y"))],
    (c4_meta_object_entries_behavior meta_depends_keyname init_manifest).2
      ("m@1.0.0") ⟨"m", ⟨1, 0, 0⟩, ⟨1, 0, 0⟩⟩ rfl⟩

/-- Claim C5, counterexample: a multi-entry object element is accepted,
producing one dependency per entry (both pushed onto root `depends`),
rather than being rejected. -/
theorem c5_counterexample_multi_entry_accepted :
    load (.obj [(depends_key,
        .arr [.obj [("a", .str ("1.0.0")), ("b", .str ("2.0.0"))]]),
        (meta_dds_key, .obj [])])
      = .ok ⟨[⟨"a", ⟨1, 0, 0⟩, ⟨1, 0, 0⟩⟩, ⟨"b", ⟨2, 0, 0⟩, ⟨2, 0, 0⟩⟩],
          [], [], []⟩ := rfl

/-- Claim C5, amended: dependency array elements that are null, bool,
number or array are rejected with the element-shape message; object
elements of any entry count are accepted, yielding one dependency per
entry (pushed onto root `depends`) provided every value is a valid range
string. -/
theorem c5_element_shapes
    (push : package_manifest → dds_dependency → package_manifest)
    (kn : String) (ret : package_manifest) :
    (dependency push kn ret .null = .error (.schemaViolation (elem_shape_msg kn))) ∧
    (∀ b, dependency push kn ret (.bool b)
        = .error (.schemaViolation (elem_shape_msg kn))) ∧
    (∀ n, dependency push kn ret (.num n)
        = .error (.schemaViolation (elem_shape_msg kn))) ∧
    (∀ es, dependency push kn ret (.arr es)
        = .error (.schemaViolation (elem_shape_msg kn))) ∧
    (∀ entries, dependency push kn ret (.obj entries)
        = Except.map (fun ds => { ret with depends := ret.depends ++ ds })
            (parse_obj_entries entries)) := by
  refine ⟨rfl, fun b => rfl, fun n => rfl, fun es => rfl, fun entries => ?_⟩
  simp only [dependency]
  exact mapping_push_eq_parse entries ret

/-- Claim C6, counterexample: a string-form element whose range part is
invalid is rejected as a walk rejection (the external combined-specifier
parse propagates a rejection, per spec section 4.2), not with an
`InvalidVersionRangeString` error naming range and name separately. -/
theorem c6_counterexample_string_element :
    load (.obj [(depends_key, .arr [.str ("a@not-a-version")]),
        (meta_dds_key, .obj [])])
      = .error (.schemaViolation
          ("Invalid version range in dependency string a@not-a-version")) := rfl

/-- Claim C6, amended: for object-form dependency elements, an invalid
version-range string makes the load fail with `InvalidVersionRangeString`
carrying both the offending range string and the dependency name. -/
theorem c6_object_invalid_range (name s : String)
    (h : parse_restricted s = none) :
    load (.obj [(depends_key, .arr [.obj [(name, .str s)]]),
        (meta_dds_key, .obj [])])
      = .error (.invalidVersionRangeString s name) := by
  have hmap : mapping_push_depends init_manifest [(name, .str s)]
      = .error (.invalidVersionRangeString s name) := by
    simp [mapping_push_depends, push_depends_obj_kv, h]
  simp only [load, load_root_deps, optional_key, List.lookup, beq_self_eq_true,
    require_array, for_each_element, dependency, hmap]

/-- Claim C6, witness: the spec scenario `not-a-version` for the
dependency named `a`. -/
theorem c6_object_invalid_range_witness :
    load (.obj [(depends_key, .arr [.obj [("a", .str ("not-a-version"))]]),
        (meta_dds_key, .obj [])])
      = .error (.invalidVersionRangeString ("not-a-version") ("a")) :=
  c6_object_invalid_range ("a") ("not-a-version") rfl

/-- Claim C7: whenever the value under the root `depends` key is not an
array, the load fails with the `SchemaViolation` stating that `depends`
should be an array of dependencies. -/
theorem c7_depends_not_array (entries : List (String × JsonData)) (v : JsonData)
    (h1 : List.lookup depends_key entries = some v)
    (h2 : ∀ es, v ≠ .arr es) :
    load (.obj entries) = .error (.schemaViolation (array_msg depends_key)) := by
  have hstep : optional_key entries depends_key
      (require_array (array_msg depends_key)
        (for_each_element (dependency push_root_dep depends_key))) init_manifest
      = .error (.schemaViolation (array_msg depends_key)) := by
    unfold optional_key
    rw [h1]
    cases v with
    | arr es => exact absurd rfl (h2 es)
    | null => rfl
    | bool b => rfl
    | num n => rfl
    | str s => rfl
    | obj es => rfl
  simp only [load, load_root_deps, hstep]

/-- Claim C7, witness: the spec scenario with `depends` bound to the
string `not-an-array` and `meta_dds` present. -/
theorem c7_depends_not_array_witness :
    load (.obj [(depends_key, .str ("not-an-array")), (meta_dds_key, .obj [])])
      = .error (.schemaViolation (array_msg depends_key)) :=
  c7_depends_not_array [(depends_key, .str ("not-an-array")), (meta_dds_key, .obj [])]
    (.str ("not-an-array")) rfl (fun _es h => JsonData.noConfusion h)

/-- Claim C8: on the valid input
`\x7b"meta_dds": \x7b"test_depends": [\x7b"d": "4.0.0"\x7d]\x7d\x7d`,
which contains `meta_dds` and omits the root `depends` and `test_depends`,
the load succeeds but the returned `depends` list is not empty: the
object-form meta test dependency was pushed onto root `depends`. -/
theorem c8_depends_polluted_scenario :
    load (.obj [(meta_dds_key, .obj [(test_depends_key,
        .arr [.obj [("d", .str ("4.0.0"))]])])])
      = .ok ⟨[⟨"d", ⟨4, 0, 0⟩, ⟨4, 0, 0⟩⟩], [], [], []⟩ := rfl

/-- Claim C9: load is a pure function of the input tree — two calls on the
same Generic Data Node yield field-wise equal manifests. -/
theorem c9_deterministic (d : JsonData) (m1 m2 : package_manifest)
    (h1 : load d = .ok m1) (h2 : load d = .ok m2) :
    m1.depends = m2.depends ∧ m1.test_depends = m2.test_depends ∧
    m1.meta_depends = m2.meta_depends ∧
    m1.meta_test_depends = m2.meta_test_depends := by
  rw [h1] at h2
  injection h2 with h2
  subst h2
  exact ⟨rfl, rfl, rfl, rfl⟩

/-- Claim C9, witness: both hypotheses hold by evaluation on a concrete
valid document. -/
theorem c9_deterministic_witness :
    init_manifest.depends = init_manifest.depends ∧
    init_manifest.test_depends = init_manifest.test_depends ∧
    init_manifest.meta_depends = init_manifest.meta_depends ∧
    init_manifest.meta_test_depends = init_manifest.meta_test_depends :=
  c9_deterministic (.obj [(meta_dds_key, .obj []), (depends_key, .arr [])])
    init_manifest init_manifest rfl rfl

/-- Claim C10: object-form elements under every dependency key go through
the shared `push_depends_obj_kv` sink — the handler ignores its target and
key name on objects; that sink only ever appends to the root `depends`
field; and consequently the meta dependency lists of any successful load
hold only string-form entries, all with an empty configuration list. -/
theorem c10_object_sink_invariant :
    (∀ push push2 kn kn2 ret entries,
      dependency push kn ret (.obj entries)
        = dependency push2 kn2 ret (.obj entries)) ∧
    (∀ ret entries r, mapping_push_depends ret entries = .ok r →
      r.test_depends = ret.test_depends ∧ r.meta_depends = ret.meta_depends ∧
      r.meta_test_depends = ret.meta_test_depends ∧
      ∃ ds, r.depends = ret.depends ++ ds) ∧
    (∀ entries m, load (.obj entries) = .ok m →
      (∀ md ∈ m.meta_depends, md.cmake_config = ([] : List (String × String))) ∧
      (∀ md ∈ m.meta_test_depends,
        md.cmake_config = ([] : List (String × String)))) := by
  refine ⟨fun push push2 kn kn2 ret entries => rfl, ?_, ?_⟩
  · intro ret entries r h
    exact mapping_push_depends_only entries ret r h
  · intro entries m h
    exact load_meta_cfgs_empty entries m h

/-- Claim C10, witness: concrete instances of all three parts. -/
theorem c10_object_sink_invariant_witness :
    (dependency push_meta_dep meta_depends_keyname init_manifest
        (.obj [("b", .str ("2.0.0"))])
      = dependency push_root_dep depends_key init_manifest
          (.obj [("b", .str ("2.0.0"))])) ∧
    ((⟨[⟨"b", ⟨2, 0, 0⟩, ⟨2, 0, 0⟩⟩], [], [], []⟩ : package_manifest).test_depends
        = init_manifest.test_depends ∧
      (⟨[⟨"b", ⟨2, 0, 0⟩, ⟨2, 0, 0⟩⟩], [], [], []⟩ : package_manifest).meta_depends
        = init_manifest.meta_depends ∧
      (⟨[⟨"b", ⟨2, 0, 0⟩, ⟨2, 0, 0⟩⟩], [], [], []⟩
          : package_manifest).meta_test_depends
        = init_manifest.meta_test_depends ∧
      ∃ ds, (⟨[⟨"b", ⟨2, 0, 0⟩, ⟨2, 0, 0⟩⟩], [], [], []⟩
          : package_manifest).depends = init_manifest.depends ++ ds) ∧
    ((∀ md ∈ (⟨[], [], [⟨⟨"m", ⟨1, 0, 0⟩, ⟨1, 0, 0⟩⟩, []⟩], []⟩
          : package_manifest).meta_depends,
        md.cmake_config = ([] : List (String × String))) ∧
      (∀ md ∈ (⟨[], [], [⟨⟨"m", ⟨1, 0, 0⟩, ⟨1, 0, 0⟩⟩, []⟩], []⟩
          : package_manifest).meta_test_depends,
        md.cmake_config = ([] : List (String × String)))) :=
  ⟨c10_object_sink_invariant.1 push_meta_dep push_root_dep meta_depends_keyname
      depends_key init_manifest [("b", .str ("2.0.0"))],
    c10_object_sink_invariant.2.1 init_manifest [("b", .str ("2.0.0"))]
      ⟨[⟨"b", ⟨2, 0, 0⟩, ⟨2, 0, 0⟩⟩], [], [], []⟩ rfl,
    c10_object_sink_invariant.2.2
      [(meta_dds_key, .obj [(depends_key, .arr [.str ("m@1.0.0")])])]
      ⟨[], [], [⟨⟨"m", ⟨1, 0, 0⟩, ⟨1, 0, 0⟩⟩, []⟩], []⟩ rfl⟩

end MetaDds
